import Mathlib

/-!
Verification of the CAD submission-marking pipeline (`src/CADMarking.py`).

Shallow embedding conventions:
* Python floats are modelled as exact rationals (`ℚ`); `None` becomes `Option`.
* The filesystem visible to the pipeline (the output directory) is a list of
  structured file names; the external CAD export service and geometry kernel
  are abstracted by their success/failure behaviour per attempt, exactly as the
  code consumes them (`export_to_step` returns a path or `None`;
  `calculate_properties` returns the three properties or three `None`s).
-/

namespace CADMarking

/-- File extensions that the pipeline inspects (`.par` submissions, generated
`.step` interchange files, `.txt`/`.log` artifacts removed by
`clean_up_files`). -/
inductive Ext where
  | par | step | txt | log | other
deriving DecidableEq, Repr

/-- A file in a directory, as the code manipulates names: a base name
(`os.path.splitext`) and an extension. -/
structure FileName where
  base : String
  ext : Ext
deriving DecidableEq, Repr

/-- `calculate_mark` (src/CADMarking.py lines 121-138): returns 0 when either
value is `None` or the expected value is 0, otherwise maps
`abs((value - expected_value) / expected_value) * 100` through the bucket
ladder. -/
def calculate_mark (value expected_value : Option ℚ) : ℚ :=
  match value, expected_value with
  | some v, some e =>
      if e = 0 then 0
      else
        let p := |(v - e) / e| * 100
        if p ≤ 1 then 5
        else if p ≤ 20 then 4
        else if p ≤ 40 then 3
        else if p ≤ 60 then 2
        else if p ≤ 80 then 1
        else 0
  | _, _ => 0

/-- The fixed inclusive-upper-bound bucket table of `calculate_mark`
(lines 128-138), as a function of the percentage error. -/
def bucket (p : ℚ) : ℚ :=
  if p ≤ 1 then 5
  else if p ≤ 20 then 4
  else if p ≤ 40 then 3
  else if p ≤ 60 then 2
  else if p ≤ 80 then 1
  else 0

/-- The percentage error the code computes (line 127):
`abs((value - expected_value) / expected_value) * 100`. -/
def percentage (value expected_value : ℚ) : ℚ :=
  |(value - expected_value) / expected_value| * 100

/-- Modelled from the spec: the spec's literal formula
`percentageError = |measured - expected| / expected * 100` (absolute value of
the numerator only), for comparison with the code's `percentage`. -/
def spec_percentage (measured expected : ℚ) : ℚ :=
  |measured - expected| / expected * 100

lemma calculate_mark_some (v e : ℚ) (he : e ≠ 0) :
    calculate_mark (some v) (some e) = bucket (percentage v e) := by
  simp [calculate_mark, bucket, percentage, he]

lemma calculate_mark_mem (v e : Option ℚ) :
    calculate_mark v e ∈ ({0, 1, 2, 3, 4, 5} : Set ℚ) := by
  rcases v with _ | v <;> rcases e with _ | e <;> simp [calculate_mark] <;>
    split_ifs <;> simp_all

lemma bucket_antitone {p q : ℚ} (h : p ≤ q) : bucket q ≤ bucket p := by
  unfold bucket
  split_ifs <;> linarith

lemma mark_set_bounds {x : ℚ} (h : x ∈ ({0, 1, 2, 3, 4, 5} : Set ℚ)) :
    0 ≤ x ∧ x ≤ 5 := by
  simp only [Set.mem_insert_iff, Set.mem_singleton_iff] at h
  rcases h with rfl | rfl | rfl | rfl | rfl | rfl <;> norm_num

lemma mark_bounds (v e : Option ℚ) :
    0 ≤ calculate_mark v e ∧ calculate_mark v e ≤ 5 :=
  mark_set_bounds (calculate_mark_mem v e)

/-- The center-of-gravity mark of `process_submissions` (lines 176-179): each
axis scored by `calculate_mark`, divided by 3, and summed. -/
def cg_mark (cg expected_cg : ℚ × ℚ × ℚ) : ℚ :=
  calculate_mark (some cg.1) (some expected_cg.1) / 3 +
  calculate_mark (some cg.2.1) (some expected_cg.2.1) / 3 +
  calculate_mark (some cg.2.2) (some expected_cg.2.2) / 3

lemma percentage_eval (v e : ℚ) : percentage v e = |v - e| / |e| * 100 := by
  unfold percentage
  rw [abs_div]

lemma percentage_121_100 : percentage 121 100 = 21 := by
  rw [percentage_eval, show (121 : ℚ) - 100 = 21 by norm_num,
    abs_of_nonneg (by norm_num : (0 : ℚ) ≤ 21),
    abs_of_nonneg (by norm_num : (0 : ℚ) ≤ 100)]
  norm_num

lemma percentage_200_100 : percentage 200 100 = 100 := by
  rw [percentage_eval, show (200 : ℚ) - 100 = 100 by norm_num,
    abs_of_nonneg (by norm_num : (0 : ℚ) ≤ 100)]
  norm_num

/-- C1 counterexample: at `measured = 0`, `expected = -100` the code's mark
(which takes the absolute value of the whole quotient, giving percentage 100
and mark 0) differs from mapping the spec's literal
`|measured - expected| / expected * 100` (which is -100, landing in the `≤ 1`
bucket, mark 5) through the table. -/
theorem c1_spec_formula_counterexample :
    calculate_mark (some 0) (some (-100)) ≠ bucket (spec_percentage 0 (-100)) := by
  have hm : calculate_mark (some 0) (some (-100)) = bucket (percentage 0 (-100)) :=
    calculate_mark_some 0 (-100) (by norm_num)
  have hp : percentage 0 (-100) = 100 := by
    rw [percentage_eval, show (0 : ℚ) - (-100) = 100 by norm_num,
      abs_of_nonneg (by norm_num : (0 : ℚ) ≤ 100),
      abs_of_nonpos (by norm_num : (-100 : ℚ) ≤ 0)]
    norm_num
  have hs : spec_percentage 0 (-100) = -100 := by
    unfold spec_percentage
    rw [show (0 : ℚ) - (-100) = 100 by norm_num,
      abs_of_nonneg (by norm_num : (0 : ℚ) ≤ 100)]
    norm_num
  rw [hm, hp, hs]
  norm_num [bucket]

/-- C1 (amended): for non-null inputs with `expected ≠ 0`,
`calculate_mark` equals the bucket table applied to
`|(measured - expected) / expected| * 100` — the absolute value of the whole
quotient, as the code computes it (equivalently `|measured-expected|/|expected|`),
not the spec's literal `|measured - expected| / expected`. -/
theorem c1_mark_eq_bucket (v e : ℚ) (he : e ≠ 0) :
    calculate_mark (some v) (some e) = bucket (percentage v e) :=
  calculate_mark_some v e he

/-- C1 witness: the amended equation at the claim's concrete inputs, giving
`mark(121, 100) = 3` and `mark(200, 100) = 0`. -/
theorem c1_mark_eq_bucket_witness :
    calculate_mark (some 121) (some 100) = 3 ∧
    calculate_mark (some 200) (some 100) = 0 := by
  constructor
  · rw [c1_mark_eq_bucket 121 100 (by norm_num), percentage_121_100]
    norm_num [bucket]
  · rw [c1_mark_eq_bucket 200 100 (by norm_num), percentage_200_100]
    norm_num [bucket]

/-- C3: a null measured value, a null expected value, or a zero expected value
each yield mark 0; `calculate_mark` is a total Lean function, so it never
raises and (its guard short-circuiting before the division) never divides by
zero. -/
theorem c3_null_and_zero_guard :
    (∀ x : Option ℚ, calculate_mark x none = 0) ∧
    (∀ x : Option ℚ, calculate_mark none x = 0) ∧
    (∀ x : Option ℚ, calculate_mark x (some 0) = 0) := by
  refine ⟨?_, ?_, ?_⟩ <;> intro x <;> rcases x with _ | v <;> simp [calculate_mark]

/-- C4: for `expected ≠ 0` the mark lies in `{0,1,2,3,4,5}`, and the mark is
non-increasing as a function of the percentage error: whenever one input pair
has percentage error at most another's, its mark is at least the other's. -/
theorem c4_mark_range_and_antitone (v e w u : ℚ) (he : e ≠ 0) (hu : u ≠ 0)
    (hle : percentage v e ≤ percentage w u) :
    calculate_mark (some v) (some e) ∈ ({0, 1, 2, 3, 4, 5} : Set ℚ) ∧
    calculate_mark (some w) (some u) ≤ calculate_mark (some v) (some e) := by
  refine ⟨calculate_mark_mem _ _, ?_⟩
  rw [calculate_mark_some v e he, calculate_mark_some w u hu]
  exact bucket_antitone hle

/-- C4 witness: at `(121, 100)` (percentage error 21) versus `(200, 100)`
(percentage error 100). -/
theorem c4_mark_range_and_antitone_witness :
    calculate_mark (some 121) (some 100) ∈ ({0, 1, 2, 3, 4, 5} : Set ℚ) ∧
    calculate_mark (some 200) (some 100) ≤ calculate_mark (some 121) (some 100) :=
  c4_mark_range_and_antitone 121 100 200 100 (by norm_num) (by norm_num)
    (by rw [percentage_121_100, percentage_200_100]; norm_num)

/-- C5: any three axis marks from `{0,1,2,3,4,5}`, each divided by 3 and
summed, total at most 5 (and at least 0); and the code's `cg_mark` — the sum
of the three per-axis `calculate_mark` results each divided by 3 — always lies
in `[0, 5]`. -/
theorem c5_cg_mark_bounds (m1 m2 m3 : ℚ) (cg ecg : ℚ × ℚ × ℚ)
    (h1 : m1 ∈ ({0, 1, 2, 3, 4, 5} : Set ℚ))
    (h2 : m2 ∈ ({0, 1, 2, 3, 4, 5} : Set ℚ))
    (h3 : m3 ∈ ({0, 1, 2, 3, 4, 5} : Set ℚ)) :
    (0 ≤ m1 / 3 + m2 / 3 + m3 / 3 ∧ m1 / 3 + m2 / 3 + m3 / 3 ≤ 5) ∧
    (0 ≤ cg_mark cg ecg ∧ cg_mark cg ecg ≤ 5) := by
  obtain ⟨l1, r1⟩ := mark_set_bounds h1
  obtain ⟨l2, r2⟩ := mark_set_bounds h2
  obtain ⟨l3, r3⟩ := mark_set_bounds h3
  obtain ⟨a1, b1⟩ := mark_bounds (some cg.1) (some ecg.1)
  obtain ⟨a2, b2⟩ := mark_bounds (some cg.2.1) (some ecg.2.1)
  obtain ⟨a3, b3⟩ := mark_bounds (some cg.2.2) (some ecg.2.2)
  unfold cg_mark
  constructor <;> constructor <;> linarith

/-- C5 witness: three maximal axis marks sum to exactly the cap, and a
concrete `cg_mark` stays within `[0, 5]`. -/
theorem c5_cg_mark_bounds_witness :
    (0 ≤ (5 : ℚ) / 3 + 5 / 3 + 5 / 3 ∧ (5 : ℚ) / 3 + 5 / 3 + 5 / 3 ≤ 5) ∧
    (0 ≤ cg_mark (0, 0, 0) (0, 0, 0) ∧ cg_mark (0, 0, 0) (0, 0, 0) ≤ 5) :=
  c5_cg_mark_bounds 5 5 5 (0, 0, 0) (0, 0, 0) (by simp) (by simp) (by simp)

/-- The export retry loop of `process_submissions` (lines 154-159):
`for _ in range(retry_count): step = export_to_step(...); if step: break`.
`exportOk k` abstracts whether the k-th call to `export_to_step` (0-based)
returns a path. Returns the index of the first successful attempt (if any)
together with the number of export calls actually made. -/
def retry_export (exportOk : ℕ → Bool) : ℕ → ℕ → Option ℕ × ℕ
  | 0, calls => (none, calls)
  | n + 1, calls =>
      if exportOk calls then (some calls, calls + 1)
      else retry_export exportOk n (calls + 1)

/-- `clean_up_files` (lines 56-67): deletes every `.txt` or `.log` file in the
output directory, modelled as keeping exactly the files with other
extensions. -/
def clean_up_files (fs : List FileName) : List FileName :=
  fs.filter (fun f => decide (¬(f.ext = Ext.txt ∨ f.ext = Ext.log)))

/-- One file of the submissions folder together with the behaviour of the
external collaborators on it: whether each `export_to_step` call succeeds, and
the value `calculate_properties` yields on the produced STEP file
(`calculate_properties` returns either all three properties or three `None`s,
so an `Option` of the triple is exact). -/
structure Entry where
  name : FileName
  exportOk : ℕ → Bool
  props : Option (ℚ × ℚ × (ℚ × ℚ × ℚ))

/-- One dictionary appended to `results` (lines 181-189). -/
structure ResultRow where
  studentId : String
  volume : ℚ
  surfaceArea : ℚ
  centerOfGravity : ℚ × ℚ × ℚ
  volumeMark : ℚ
  surfaceAreaMark : ℚ
  cgMark : ℚ

/-- State threaded through the loop of `process_submissions`: the accumulated
`results`, the contents of the output directory, `submission_count`, and the
progress messages printed so far (each a pair current/total). -/
structure BatchState where
  results : List ResultRow
  fs : List FileName
  submission_count : ℕ
  progress : List (ℕ × ℕ)

/-- The STEP file `export_to_step` produces for an entry: same base name,
`.step` extension (lines 27-28). -/
def step_name (e : Entry) : FileName :=
  ⟨e.name.base, Ext.step⟩

/-- The body of the `for file_name in os.listdir(...)` loop of
`process_submissions` (lines 149-196): skip non-`.par` files; retry export up
to 3 times; on export failure `continue` (no result, no progress line); on
property-calculation failure `continue` (the STEP file is not removed); on
success compute the marks, append the result row, remove the STEP file, and
print the progress line. -/
def process_entry (ev es : Option ℚ) (ecg : ℚ × ℚ × ℚ) (total : ℕ)
    (st : BatchState) (e : Entry) : BatchState :=
  if e.name.ext = Ext.par then
    match (retry_export e.exportOk 3 0).1 with
    | none => st
    | some _ =>
        let fs1 := (st.fs.erase (step_name e)) ++ [step_name e]
        match e.props with
        | none => { st with fs := fs1 }
        | some (v, sa, cg) =>
            let row : ResultRow :=
              { studentId := e.name.base, volume := v, surfaceArea := sa,
                centerOfGravity := cg,
                volumeMark := calculate_mark (some v) ev,
                surfaceAreaMark := calculate_mark (some sa) es,
                cgMark := cg_mark cg ecg }
            { results := st.results ++ [row],
              fs := fs1.erase (step_name e),
              submission_count := st.submission_count + 1,
              progress := st.progress ++ [(st.submission_count + 1, total)] }
  else st

/-- `total_submissions` (line 147): the number of `.par` files in the
submissions folder. -/
def total_par (entries : List Entry) : ℕ :=
  (entries.filter (fun e => decide (e.name.ext = Ext.par))).length

/-- `process_submissions` (lines 141-199): fold the loop body over the
directory listing, then `clean_up_files(output_dir)`. -/
def process_submissions (entries : List Entry) (ev es : Option ℚ)
    (ecg : ℚ × ℚ × ℚ) (fs0 : List FileName) : BatchState :=
  let final := entries.foldl (process_entry ev es ecg (total_par entries))
    { results := [], fs := fs0, submission_count := 0, progress := [] }
  { final with fs := clean_up_files final.fs }

/-- An entry reaches the success path of the loop: it is a `.par` file, some
export attempt among the first 3 succeeds, and property calculation
succeeds. -/
def extraction_succeeds (e : Entry) : Bool :=
  decide (e.name.ext = Ext.par) && ((retry_export e.exportOk 3 0).1).isSome
    && e.props.isSome

/-- `extract_expected_values` (lines 107-118): a single `export_to_step`
call (attempt 0, no retry); on success, `calculate_properties` on the produced
file (the deletion of the transient STEP file and the `.txt`/`.log` cleanup
are file effects that do not touch the returned values). -/
def extract_expected_values (exportOk : ℕ → Bool)
    (props : Option (ℚ × ℚ × (ℚ × ℚ × ℚ))) : Option (ℚ × ℚ × (ℚ × ℚ × ℚ)) :=
  if exportOk 0 then props else none

/-- The value computed by the per-submission extraction path of
`process_submissions`, for a given attempt budget: export with retry, then
`calculate_properties` on success. -/
def extract_with_retry (exportOk : ℕ → Bool) (maxAttempts : ℕ)
    (props : Option (ℚ × ℚ × (ℚ × ℚ × ℚ))) : Option (ℚ × ℚ × (ℚ × ℚ × ℚ)) :=
  match (retry_export exportOk maxAttempts 0).1 with
  | some _ => props
  | none => none

/-- A `.par` submission whose export always succeeds and whose properties
compute. -/
def entry_ok (id : String) : Entry :=
  ⟨⟨id, Ext.par⟩, fun _ => true, some (1, 1, (0, 0, 0))⟩

/-- A `.par` submission whose export always fails. -/
def entry_export_fail (id : String) : Entry :=
  ⟨⟨id, Ext.par⟩, fun _ => false, some (1, 1, (0, 0, 0))⟩

/-- A `.par` submission whose export succeeds but whose property calculation
fails. -/
def entry_props_fail (id : String) : Entry :=
  ⟨⟨id, Ext.par⟩, fun _ => true, none⟩

lemma retry_export_calls_le (f : ℕ → Bool) :
    ∀ n calls, (retry_export f n calls).2 ≤ calls + n := by
  intro n
  induction n with
  | zero => intro calls; simp [retry_export]
  | succ n ih =>
      intro calls
      cases hfc : f calls with
      | true => simp [retry_export, hfc]
      | false =>
          simp only [retry_export, hfc, Bool.false_eq_true, if_false]
          have h := ih (calls + 1)
          omega

lemma retry_export_first_success (f : ℕ → Bool) :
    ∀ n calls k, calls ≤ k → k < calls + n → f k = true →
      (∀ j, calls ≤ j → j < k → f j = false) →
      retry_export f n calls = (some k, k + 1) := by
  intro n
  induction n with
  | zero => intro calls k h1 h2 _ _; omega
  | succ n ih =>
      intro calls k h1 h2 hk hprev
      rcases Nat.eq_or_lt_of_le h1 with heq | hlt
      · subst heq
        simp [retry_export, hk]
      · have hf : f calls = false := hprev calls le_rfl hlt
        simp only [retry_export, hf, Bool.false_eq_true, if_false]
        exact ih (calls + 1) k hlt (by omega) hk
          (fun j hj1 hj2 => hprev j (by omega) hj2)

/-- C6: the retry loop makes at most `maxAttempts` export calls; and when the
first successful attempt is attempt `k` (0-based, `k < maxAttempts`), the loop
stops right there, having made exactly `k + 1` export calls and returning
success. -/
theorem c6_retry_bound (f : ℕ → Bool) (maxAttempts k : ℕ)
    (hk : k < maxAttempts) (hsucc : f k = true)
    (hfail : ∀ j, j < k → f j = false) :
    (retry_export f maxAttempts 0).2 ≤ maxAttempts ∧
    retry_export f maxAttempts 0 = (some k, k + 1) := by
  constructor
  · have h := retry_export_calls_le f maxAttempts 0
    omega
  · exact retry_export_first_success f maxAttempts 0 k (Nat.zero_le k) (by omega)
      hsucc (fun j _ hj => hfail j hj)

/-- C6 witness: an export service that fails twice then succeeds, with
`maxAttempts = 3`: the loop returns success after exactly 3 export calls. -/
theorem c6_retry_bound_witness :
    (retry_export (fun a => decide (2 ≤ a)) 3 0).2 ≤ 3 ∧
    retry_export (fun a => decide (2 ≤ a)) 3 0 = (some 2, 3) := by
  have h := c6_retry_bound (fun a => decide (2 ≤ a)) 3 2 (by norm_num)
    (by norm_num) (fun j hj => by simp [decide_eq_false_iff_not]; omega)
  simpa using h

/-- C9 counterexample: an export service that fails on the first call and
succeeds on the second. The expected-values extraction
(`extract_expected_values`, one export attempt) fails, while the
per-submission extraction path (retrying export up to 3 times) succeeds on the
same input — the two paths are not identical. -/
theorem c9_expected_path_counterexample :
    extract_expected_values (fun a => decide (1 ≤ a)) (some (1, 1, (0, 0, 0))) = none ∧
    extract_with_retry (fun a => decide (1 ≤ a)) 3 (some (1, 1, (0, 0, 0)))
      = some (1, 1, (0, 0, 0)) := by
  constructor <;> rfl

/-- C9 (amended): the expected-values extraction performs the same
export-then-read steps as the per-submission path but with a single export
attempt (no retry): it coincides with the per-submission extraction run with
`maxAttempts = 1`, whereas `process_submissions` extracts with
`maxAttempts = 3` (second conjunct: the per-submission success predicate is
exactly `.par` plus `extract_with_retry` with budget 3 succeeding). -/
theorem c9_expected_is_single_attempt (f : ℕ → Bool)
    (props : Option (ℚ × ℚ × (ℚ × ℚ × ℚ))) (e : Entry) :
    extract_expected_values f props = extract_with_retry f 1 props ∧
    extraction_succeeds e
      = (decide (e.name.ext = Ext.par)
          && (extract_with_retry e.exportOk 3 e.props).isSome) := by
  constructor
  · unfold extract_expected_values extract_with_retry
    cases hf : f 0 <;> simp [retry_export, hf]
  · unfold extraction_succeeds extract_with_retry
    cases hr : (retry_export e.exportOk 3 0).1 <;>
      cases hp : e.props <;> simp [hr, hp]

lemma foldl_results (ev es : Option ℚ) (ecg : ℚ × ℚ × ℚ) (total : ℕ) :
    ∀ (entries : List Entry) (st : BatchState),
      ((entries.foldl (process_entry ev es ecg total) st).results).map ResultRow.studentId
        = st.results.map ResultRow.studentId
          ++ (entries.filter extraction_succeeds).map (fun e => e.name.base) := by
  intro entries
  induction entries with
  | nil => intro st; simp
  | cons e rest ih =>
      intro st
      rw [List.foldl_cons, ih]
      by_cases hpar : e.name.ext = Ext.par
      · cases hr : (retry_export e.exportOk 3 0).1 with
        | none =>
            have hf : extraction_succeeds e = false := by
              simp [extraction_succeeds, hr]
            simp [process_entry, hpar, hr, List.filter_cons, hf]
        | some a =>
            cases hp : e.props with
            | none =>
                have hf : extraction_succeeds e = false := by
                  simp [extraction_succeeds, hp]
                simp [process_entry, hpar, hr, hp, List.filter_cons, hf]
            | some t =>
                have hf : extraction_succeeds e = true := by
                  simp [extraction_succeeds, hpar, hr, hp]
                rcases t with ⟨v, sa, cg⟩
                simp [process_entry, hpar, hr, hp, List.filter_cons, hf]
      · have hf : extraction_succeeds e = false := by
          simp [extraction_succeeds, hpar]
        simp [process_entry, hpar, List.filter_cons, hf]

/-- C2 counterexample: three `.par` submissions where the second one's export
always fails. `process_submissions` returns only 2 results — the failed
submission is skipped, not recorded with a failure status. -/
theorem c2_batch_isolation_counterexample :
    ((process_submissions [entry_ok "S1", entry_export_fail "S2", entry_ok "S3"]
        (some 1) (some 1) (0, 0, 0) []).results).length = 2 ∧
    ((process_submissions [entry_ok "S1", entry_export_fail "S2", entry_ok "S3"]
        (some 1) (some 1) (0, 0, 0) []).results).map ResultRow.studentId
      = ["S1", "S3"] := by
  constructor <;> rfl

/-- C2 (amended): `process_submissions` returns exactly one result per
*successful* submission, in discovery order; a submission whose export or
property calculation fails is skipped entirely — no result of any kind is
recorded for it (only a console diagnostic, so the two failure kinds are not
distinguishable in the returned data) — while processing continues with the
remaining submissions (no early termination). -/
theorem c2_results_match_successes (entries : List Entry) (ev es : Option ℚ)
    (ecg : ℚ × ℚ × ℚ) (fs0 : List FileName) :
    ((process_submissions entries ev es ecg fs0).results).map ResultRow.studentId
      = (entries.filter extraction_succeeds).map (fun e => e.name.base) := by
  unfold process_submissions
  simpa using foldl_results ev es ecg (total_par entries) entries
    { results := [], fs := fs0, submission_count := 0, progress := [] }

lemma foldl_progress (ev es : Option ℚ) (ecg : ℚ × ℚ × ℚ) (total : ℕ) :
    ∀ (entries : List Entry) (st : BatchState),
      (entries.foldl (process_entry ev es ecg total) st).submission_count
        = st.submission_count + (entries.filter extraction_succeeds).length ∧
      (entries.foldl (process_entry ev es ecg total) st).progress
        = st.progress
          ++ (List.range' (st.submission_count + 1)
                (entries.filter extraction_succeeds).length).map
              (fun c => (c, total)) := by
  intro entries
  induction entries with
  | nil => intro st; simp
  | cons e rest ih =>
      intro st
      rw [List.foldl_cons]
      by_cases hpar : e.name.ext = Ext.par
      · cases hr : (retry_export e.exportOk 3 0).1 with
        | none =>
            have hf : extraction_succeeds e = false := by
              simp [extraction_succeeds, hr]
            simpa [process_entry, hpar, hr, List.filter_cons, hf] using ih st
        | some a =>
            cases hp : e.props with
            | none =>
                have hf : extraction_succeeds e = false := by
                  simp [extraction_succeeds, hp]
                have h := ih { st with fs := (st.fs.erase (step_name e)) ++ [step_name e] }
                simpa [process_entry, hpar, hr, hp, List.filter_cons, hf] using h
            | some t =>
                have hf : extraction_succeeds e = true := by
                  simp [extraction_succeeds, hpar, hr, hp]
                rcases t with ⟨v, sa, cg⟩
                have hcnt : (process_entry ev es ecg total st e).submission_count
                    = st.submission_count + 1 := by
                  simp [process_entry, hpar, hr, hp]
                have hprg : (process_entry ev es ecg total st e).progress
                    = st.progress ++ [(st.submission_count + 1, total)] := by
                  simp [process_entry, hpar, hr, hp]
                obtain ⟨hc, hpr⟩ := ih (process_entry ev es ecg total st e)
                refine ⟨?_, ?_⟩
                · rw [hc, hcnt]
                  simp [List.filter_cons, hf]
                  omega
                · rw [hpr, hprg, hcnt]
                  simp only [List.filter_cons, hf, if_true, List.length_cons,
                    List.range'_succ, List.map_cons]
                  simp [List.append_assoc]
      · have hf : extraction_succeeds e = false := by
          simp [extraction_succeeds, hpar]
        simpa [process_entry, hpar, List.filter_cons, hf] using ih st

/-- C8 counterexample: a batch with one `.par` submission whose extraction
fails: the total count is 1 but no progress signal at all is emitted — the
progress line is printed only on the success path, not after every
submission. -/
theorem c8_no_progress_for_failure :
    total_par [entry_export_fail "S2"] = 1 ∧
    (process_submissions [entry_export_fail "S2"] (some 1) (some 1) (0, 0, 0)
      []).progress = [] := by
  constructor <;> rfl

/-- C8 (amended): `process_submissions` emits a progress signal only after
each *successfully* processed submission (failed submissions emit none),
reporting the cumulative success count so far out of the total number of
`.par` submissions. -/
theorem c8_progress_only_on_success (entries : List Entry) (ev es : Option ℚ)
    (ecg : ℚ × ℚ × ℚ) (fs0 : List FileName) :
    (process_submissions entries ev es ecg fs0).progress
      = (List.range' 1 (entries.filter extraction_succeeds).length).map
          (fun c => (c, total_par entries)) := by
  unfold process_submissions
  have h := (foldl_progress ev es ecg (total_par entries) entries
    { results := [], fs := fs0, submission_count := 0, progress := [] }).2
  simpa using h

lemma clean_up_files_mem (fs : List FileName) (f : FileName) :
    f ∈ clean_up_files fs ↔ f ∈ fs ∧ f.ext ≠ Ext.txt ∧ f.ext ≠ Ext.log := by
  simp [clean_up_files, List.mem_filter, not_or]

lemma process_entry_fs_other (ev es : Option ℚ) (ecg : ℚ × ℚ × ℚ) (total : ℕ)
    (e : Entry) (st : BatchState) (f : FileName)
    (hne : f.base ≠ e.name.base) (hf : f ∈ st.fs) :
    f ∈ (process_entry ev es ecg total st e).fs := by
  have hfs : f ≠ step_name e := by
    intro h
    apply hne
    rw [h]
    rfl
  unfold process_entry
  by_cases hpar : e.name.ext = Ext.par
  · rw [if_pos hpar]
    cases hr : (retry_export e.exportOk 3 0).1 with
    | none => exact hf
    | some a =>
        cases hp : e.props with
        | none =>
            simp only []
            exact List.mem_append_left _ ((List.mem_erase_of_ne hfs).mpr hf)
        | some t =>
            rcases t with ⟨v, sa, cg⟩
            simp only []
            exact (List.mem_erase_of_ne hfs).mpr
              (List.mem_append_left _ ((List.mem_erase_of_ne hfs).mpr hf))
  · rw [if_neg hpar]
    exact hf

lemma foldl_fs_keep (ev es : Option ℚ) (ecg : ℚ × ℚ × ℚ) (total : ℕ)
    (f : FileName) :
    ∀ (l : List Entry) (st : BatchState), f ∈ st.fs →
      (∀ e2 ∈ l, e2.name.base ≠ f.base) →
      f ∈ (l.foldl (process_entry ev es ecg total) st).fs := by
  intro l
  induction l with
  | nil => intro st hf _; simpa using hf
  | cons e rest ih =>
      intro st hf hd
      rw [List.foldl_cons]
      refine ih _ ?_ (fun e2 he2 => hd e2 (List.mem_cons_of_mem e he2))
      exact process_entry_fs_other ev es ecg total e st f
        (fun h => hd e (List.mem_cons_self e rest) h.symm) hf

lemma process_entry_props_fail_mem (ev es : Option ℚ) (ecg : ℚ × ℚ × ℚ)
    (total : ℕ) (e : Entry) (st : BatchState)
    (hpar : e.name.ext = Ext.par)
    (hr : ((retry_export e.exportOk 3 0).1).isSome = true)
    (hp : e.props = none) :
    step_name e ∈ (process_entry ev es ecg total st e).fs := by
  obtain ⟨a, ha⟩ := Option.isSome_iff_exists.mp hr
  unfold process_entry
  rw [if_pos hpar, ha, hp]
  simp

/-- C10: when a `.par` submission's export succeeds but its property
calculation fails, the generated `.step` interchange file stays in the output
directory through the rest of the batch (step-file deletion happens only on
the fully successful path), and it also survives the end-of-batch
`clean_up_files`, which removes exactly the `.txt` and `.log` files and in
particular never a `.step` file (second conjunct). No later submission shares
the base name, so none overwrites or removes the file. -/
theorem c10_step_file_retained (pre post : List Entry) (e : Entry)
    (ev es : Option ℚ) (ecg : ℚ × ℚ × ℚ) (fs0 : List FileName)
    (hpar : e.name.ext = Ext.par)
    (hexp : ((retry_export e.exportOk 3 0).1).isSome = true)
    (hp : e.props = none)
    (hpost : ∀ e2 ∈ post, e2.name.base ≠ e.name.base) :
    step_name e ∈ (process_submissions (pre ++ e :: post) ev es ecg fs0).fs ∧
    (∀ (fs : List FileName) (g : FileName),
      g ∈ clean_up_files fs ↔ g ∈ fs ∧ g.ext ≠ Ext.txt ∧ g.ext ≠ Ext.log) := by
  refine ⟨?_, fun fs g => clean_up_files_mem fs g⟩
  unfold process_submissions
  simp only [List.foldl_append, List.foldl_cons]
  rw [clean_up_files_mem]
  refine ⟨?_, by simp [step_name], by simp [step_name]⟩
  refine foldl_fs_keep ev es ecg _ (step_name e) post _ ?_
    (fun e2 he2 => by simpa [step_name] using hpost e2 he2)
  exact process_entry_props_fail_mem ev es ecg _ e _ hpar hexp hp

/-- C10 witness: a single submission whose export succeeds and whose property
calculation fails leaves its `.step` file in the output directory at the end
of the batch. -/
theorem c10_step_file_retained_witness :
    step_name (entry_props_fail "S2")
      ∈ (process_submissions [entry_props_fail "S2"] (some 1) (some 1)
          (0, 0, 0) []).fs :=
  (c10_step_file_retained [] [] (entry_props_fail "S2") (some 1) (some 1)
    (0, 0, 0) [] rfl rfl rfl (by simp)).1

/-- The decimal digit character for `k` (`k` is always `< 10` where used). -/
def digit_char (k : ℕ) : Char :=
  if k = 0 then '0' else if k = 1 then '1' else if k = 2 then '2'
  else if k = 3 then '3' else if k = 4 then '4' else if k = 5 then '5'
  else if k = 6 then '6' else if k = 7 then '7' else if k = 8 then '8'
  else '9'

/-- The last `d` decimal digits of `n`, most significant first, zero-padded to
exactly `d` characters: the fractional part of fixed-point rendering. -/
def fracDigits : ℕ → ℕ → List Char
  | _, 0 => []
  | n, d + 1 => fracDigits (n / 10) d ++ [digit_char (n % 10)]

/-- Fixed-precision decimal rendering of a rational, modelling Python's
`f"{x:.df}"` on the embedded values: scale by `10 ^ d`, round to an integer,
and print sign, integer part, a dot, and exactly `d` fractional digits. -/
def fmtFixedChars (q : ℚ) (d : ℕ) : List Char :=
  (if round (q * (10 : ℚ) ^ d) < 0 then ['-'] else []) ++
    (Nat.repr ((round (q * (10 : ℚ) ^ d)).natAbs / 10 ^ d)).data ++
    ['.'] ++ fracDigits (round (q * (10 : ℚ) ^ d)).natAbs d

/-- String form of `fmtFixedChars`. -/
def fmtFixed (q : ℚ) (d : ℕ) : String :=
  String.mk (fmtFixedChars q d)

/-- The number of characters after the last `.` of a string: its count of
decimal places. -/
def decimalTail (s : String) : ℕ :=
  (s.data.reverse.takeWhile (fun c => decide (c ≠ '.'))).length

/-- The `CenterOfGravity` cell (lines 217-221): the three components each to 3
decimal places, as a parenthesised tuple. -/
def fmtTriple (cg : ℚ × ℚ × ℚ) : String :=
  "(" ++ fmtFixed cg.1 3 ++ ", " ++ fmtFixed cg.2.1 3 ++ ", "
    ++ fmtFixed cg.2.2 3 ++ ")"

/-- The `fieldnames` header row of `save_results_to_csv` (line 208). -/
def csv_header : List String :=
  ["StudentID", "Volume", "SurfaceArea", "CenterOfGravity", "VolumeMark",
   "SurfaceAreaMark", "CGMark"]

/-- One data row written by `writer.writerow` (lines 213-225). Every field of
a recorded `ResultRow` is numeric (only fully successful submissions are ever
appended to `results`), so the `isinstance` guards always take their numeric
branch: raw properties to 3 decimals, the center of gravity as a 3-tuple of
3-decimal values, marks to 2 decimals. -/
def render_row (r : ResultRow) : List String :=
  [r.studentId, fmtFixed r.volume 3, fmtFixed r.surfaceArea 3,
   fmtTriple r.centerOfGravity, fmtFixed r.volumeMark 2,
   fmtFixed r.surfaceAreaMark 2, fmtFixed r.cgMark 2]

/-- `save_results_to_csv` (lines 202-225): the header row followed by one data
row per result, in the order of the `results` list. -/
def save_results_to_csv (results : List ResultRow) : List (List String) :=
  csv_header :: results.map render_row

lemma fracDigits_length (d : ℕ) : ∀ n, (fracDigits n d).length = d := by
  induction d with
  | zero => intro n; simp [fracDigits]
  | succ d ih => intro n; simp [fracDigits, ih]

lemma digit_char_ne_dot (k : ℕ) : digit_char k ≠ '.' := by
  unfold digit_char
  split_ifs <;> decide

lemma fracDigits_no_dot (d : ℕ) : ∀ n, ∀ c ∈ fracDigits n d, c ≠ '.' := by
  induction d with
  | zero => intro n c hc; simp [fracDigits] at hc
  | succ d ih =>
      intro n c hc
      simp only [fracDigits, List.mem_append, List.mem_singleton] at hc
      rcases hc with hc | rfl
      · exact ih (n / 10) c hc
      · exact digit_char_ne_dot (n % 10)

lemma takeWhile_all_append (p : Char → Bool) :
    ∀ (l : List Char) (c : Char) (r : List Char),
      (∀ x ∈ l, p x = true) → p c = false →
      (l ++ c :: r).takeWhile p = l := by
  intro l
  induction l with
  | nil => intro c r _ hc; simp [List.takeWhile, hc]
  | cons a as ih =>
      intro c r hl hc
      have ha : p a = true := hl a (List.mem_cons_self a as)
      simp only [List.cons_append, List.takeWhile, ha]
      exact congrArg (fun t => a :: t)
        (ih c r (fun x hx => hl x (List.mem_cons_of_mem a hx)) hc)

lemma decimalTail_parts (a frac : List Char) (hfrac : ∀ c ∈ frac, c ≠ '.') :
    decimalTail (String.mk (a ++ ['.'] ++ frac)) = frac.length := by
  unfold decimalTail
  have hrev : (a ++ ['.'] ++ frac).reverse = frac.reverse ++ '.' :: a.reverse := by
    simp [List.reverse_append]
  rw [hrev, takeWhile_all_append]
  · exact List.length_reverse frac
  · intro x hx
    simp only [decide_eq_true_eq]
    exact hfrac x (List.mem_reverse.mp hx)
  · simp

lemma decimalTail_fmtFixed (q : ℚ) (d : ℕ) : decimalTail (fmtFixed q d) = d := by
  unfold fmtFixed fmtFixedChars
  rw [show ((if round (q * (10 : ℚ) ^ d) < 0 then ['-'] else []) ++
      (Nat.repr ((round (q * (10 : ℚ) ^ d)).natAbs / 10 ^ d)).data ++
      ['.'] ++ fracDigits (round (q * (10 : ℚ) ^ d)).natAbs d)
    = (((if round (q * (10 : ℚ) ^ d) < 0 then ['-'] else []) ++
      (Nat.repr ((round (q * (10 : ℚ) ^ d)).natAbs / 10 ^ d)).data) ++
      ['.'] ++ fracDigits (round (q * (10 : ℚ) ^ d)).natAbs d) from by
        simp [List.append_assoc]]
  rw [decimalTail_parts _ _ (fracDigits_no_dot d _)]
  exact fracDigits_length d _

/-- C7: the report is the exact header row `StudentID, Volume, SurfaceArea,
CenterOfGravity, VolumeMark, SurfaceAreaMark, CGMark` followed by exactly one
data row per submission result, in the order of the result list (never sorted
by identifier — the row identifiers are the result identifiers in sequence);
raw properties are rendered to 3 decimal places, the center of gravity as a
parenthesised 3-tuple of 3-decimal values, and marks to 2 decimal places. -/
theorem c7_report_layout (results : List ResultRow) :
    (save_results_to_csv results).head? = some ["StudentID", "Volume",
      "SurfaceArea", "CenterOfGravity", "VolumeMark", "SurfaceAreaMark",
      "CGMark"] ∧
    (save_results_to_csv results).length = results.length + 1 ∧
    (save_results_to_csv results).tail = results.map render_row ∧
    (save_results_to_csv results).tail.map (fun row => row.head?)
      = results.map (fun r => some r.studentId) ∧
    (∀ r : ResultRow, render_row r
      = [r.studentId, fmtFixed r.volume 3, fmtFixed r.surfaceArea 3,
         "(" ++ fmtFixed r.centerOfGravity.1 3 ++ ", "
           ++ fmtFixed r.centerOfGravity.2.1 3 ++ ", "
           ++ fmtFixed r.centerOfGravity.2.2 3 ++ ")",
         fmtFixed r.volumeMark 2, fmtFixed r.surfaceAreaMark 2,
         fmtFixed r.cgMark 2]) ∧
    (∀ q : ℚ, decimalTail (fmtFixed q 3) = 3 ∧ decimalTail (fmtFixed q 2) = 2) := by
  refine ⟨rfl, by simp [save_results_to_csv], rfl, ?_, fun r => rfl,
    fun q => ⟨decimalTail_fmtFixed q 3, decimalTail_fmtFixed q 2⟩⟩
  simp [save_results_to_csv, render_row]

end CADMarking
